import Mathlib

/-!
Verification of the PyBal load-balancer core (pybal/ipvs.py, pybal/monitor.py,
pybal/bgp/ip.py) against its natural-language specification.

The Python code is shallowly embedded: each Python method becomes an executable
Lean definition over explicit state structures.  Python sets of server objects
become finite sets of server identities (Python sets of these objects compare by
object identity / hash); mutation of attributes becomes explicit state passing;
Python exceptions become Except results.
-/

namespace PyBal

/-! ## pybal/ipvs.py : IPVSManager command construction

A Python service tuple has the shape (protocol, address, port[, scheduler
[, ops]]); the two optional trailing slots are modelled as Option fields
(scheduler = none models a 3-tuple, ops = none models a 4-tuple). -/

structure ServiceTuple where
  protocol : String
  addr : String
  port : Nat
  scheduler : Option String
  ops : Option Bool
deriving DecidableEq, Repr

/-- A PyBal server object as seen by ipvs.py: attributes host, ip
(optional, possibly the empty string), weight (optional integer) and
the pooled flag mutated by addServer / removeServer. -/
structure Server where
  host : String
  ip : Option String
  weight : Option Nat
  pooled : Bool
deriving DecidableEq, Repr

/-- The protocol dictionary lookup in IPVSManager.subCommandService: the dict
only knows tcp and udp; any other key raises KeyError (modelled as none). -/
def protocolFlag (p : String) : Option String :=
  if p = "tcp" then some "-t"
  else if p = "udp" then some "-u"
  else none

/-- IPVSManager.subCommandService: protocol flag, then the address (bracketed
when it contains a colon, i.e. IPv6) and the port after a colon. -/
def subCommandService (svc : ServiceTuple) : Option String :=
  match protocolFlag svc.protocol with
  | none => none
  | some fl =>
    let hostPart :=
      if svc.addr.toList.contains ':' then
        " [" ++ svc.addr ++ "]:" ++ toString svc.port
      else
        " " ++ svc.addr ++ ":" ++ toString svc.port
    some (fl ++ hostPart)

/-- IPVSManager.subCommandServer: the server's ip if set and non-empty
(Python: server.ip or server.host), else the host name. -/
def subCommandServer (srv : Server) : String :=
  "-r " ++ (match srv.ip with
            | some s => if s = "" then srv.host else s
            | none => srv.host)

/-- IPVSManager.commandAddService: base add command, scheduler appended when
the tuple has more than 3 slots, the one-packet flag -o appended when the
tuple has more than 4 slots and the fifth is truthy. -/
def commandAddService (svc : ServiceTuple) : Option String :=
  (subCommandService svc).map fun sub =>
    let cmd := "-A " ++ sub
    match svc.scheduler with
    | none => cmd
    | some sch =>
      let cmd := cmd ++ " -s " ++ sch
      if svc.ops = some true then cmd ++ " -o" else cmd

/-- IPVSManager.commandRemoveService. -/
def commandRemoveService (svc : ServiceTuple) : Option String :=
  (subCommandService svc).map fun sub => "-D " ++ sub

/-- IPVSManager.commandAddServer: join of -a, the service sub-command and the
server sub-command, with the weight appended when server.weight is truthy
(a non-None, non-zero integer). -/
def commandAddServer (svc : ServiceTuple) (srv : Server) : Option String :=
  (subCommandService svc).map fun sub =>
    let cmd := "-a " ++ sub ++ " " ++ subCommandServer srv
    match srv.weight with
    | some w => if w ≠ 0 then cmd ++ " -w " ++ toString w else cmd
    | none => cmd

/-- IPVSManager.commandEditServer: as commandAddServer with the -e action. -/
def commandEditServer (svc : ServiceTuple) (srv : Server) : Option String :=
  (subCommandService svc).map fun sub =>
    let cmd := "-e " ++ sub ++ " " ++ subCommandServer srv
    match srv.weight with
    | some w => if w ≠ 0 then cmd ++ " -w " ++ toString w else cmd
    | none => cmd

/-- IPVSManager.commandRemoveServer: join of -d, the service sub-command and
the server sub-command (no weight). -/
def commandRemoveServer (svc : ServiceTuple) (srv : Server) : Option String :=
  (subCommandService svc).map fun sub =>
    "-d " ++ sub ++ " " ++ subCommandServer srv

/-! ## pybal/ipvs.py : LVSService state

Python sets of server objects are sets under object identity; we give every
server object an identity in Nat and keep the object attributes in a store
indexed by identity.  The emitted ipvsadm commands are tagged by the command
constructor used (commandAddServer / commandEditServer / commandRemoveServer)
and by the server identity they were built from; renderCmd recovers the
literal command string. -/

inductive CmdKind where
  | add
  | edit
  | remove
deriving DecidableEq, Repr

structure Cmd where
  kind : CmdKind
  server : Nat
deriving DecidableEq, Repr

/-- Rank used to express the fixed adds-then-edits-then-removes emission
order of LVSService.assignServers. -/
def kindRank : CmdKind → Nat
  | CmdKind.add => 0
  | CmdKind.edit => 1
  | CmdKind.remove => 2

/-- The string actually emitted for a tagged command. -/
def renderCmd (svc : ServiceTuple) (store : Nat → Server) (c : Cmd) : Option String :=
  match c.kind with
  | CmdKind.add => commandAddServer svc (store c.server)
  | CmdKind.edit => commandEditServer svc (store c.server)
  | CmdKind.remove => commandRemoveServer svc (store c.server)

/-- The elements of a multiset of naturals in ascending order (computable and
kernel-reducible, unlike Multiset.sort). -/
def msAsc (m : Multiset Nat) : List Nat :=
  Quotient.liftOn m (fun l => List.insertionSort (· ≤ ·) l)
    (fun l₁ l₂ h =>
      List.eq_of_perm_of_sorted
        ((List.perm_insertionSort _ l₁).trans (h.trans (List.perm_insertionSort _ l₂).symm))
        (List.sorted_insertionSort _ l₁)
        (List.sorted_insertionSort _ l₂))

/-- The elements of a finite set of naturals in ascending order: the
iteration order we fix for Python's arbitrary set iteration. -/
def ascList (s : Finset Nat) : List Nat :=
  msAsc s.val

/-- State of one LVSService instance: its service tuple, the set
self.servers of installed server identities, and the attribute store of all
server objects. -/
structure LVSState where
  service : ServiceTuple
  servers : Finset Nat
  store : Nat → Server

/-- LVSService.assignServers: adds for newServers - servers, then edits for
newServers and servers, then removes for servers - newServers, and
self.servers is replaced by newServers.  Python set iteration order is
arbitrary; each difference / intersection is iterated here in ascending
identity order. -/
def assignServers (st : LVSState) (newServers : Finset Nat) : List Cmd × LVSState :=
  let cmdList :=
    (ascList (newServers \ st.servers)).map (fun s => Cmd.mk CmdKind.add s) ++
    (ascList (newServers ∩ st.servers)).map (fun s => Cmd.mk CmdKind.edit s) ++
    (ascList (st.servers \ newServers)).map (fun s => Cmd.mk CmdKind.remove s)
  (cmdList, { st with servers := newServers })

/-- LVSService.addServer: add command when the server is not yet installed,
else a warning plus an edit command; the server is inserted and its pooled
attribute set to True. -/
def addServer (st : LVSState) (s : Nat) : List Cmd × LVSState :=
  let cmdList :=
    if s ∉ st.servers then [Cmd.mk CmdKind.add s] else [Cmd.mk CmdKind.edit s]
  (cmdList,
   { st with
     servers := insert s st.servers,
     store := fun i => if i = s then { st.store i with pooled := true } else st.store i })

/-- LVSService.removeServer: self.servers.remove(server) raises KeyError (the
spec's NotMemberError) when the server is not installed; on success the
server is removed and its pooled attribute set to False. -/
def removeServer (st : LVSState) (s : Nat) : Except Unit (List Cmd × LVSState) :=
  if s ∈ st.servers then
    Except.ok ([Cmd.mk CmdKind.remove s],
      { st with
        servers := st.servers.erase s,
        store := fun i => if i = s then { st.store i with pooled := false } else st.store i })
  else
    Except.error ()

/-! ## pybal/monitor.py : MonitoringProtocol result ingestion

State of one MonitoringProtocol instance.  self.up is None, False or True
(Option Bool); self.coordinator may be absent (hasCoordinator); the four
metric counters and the notifications actually delivered to the coordinator
are tracked explicitly; statusGauge is the last value set on the status
gauge (none before any transition). -/

structure MonitorState where
  up : Option Bool
  active : Bool
  firstCheck : Bool
  hasCoordinator : Bool
  upResults : Nat
  downResults : Nat
  upTransitions : Nat
  downTransitions : Nat
  coordUpNotifications : Nat
  coordDownNotifications : Nat
  statusGauge : Option Nat
deriving DecidableEq, Repr

/-- MonitoringProtocol._resultUp.  The raw counter is always incremented;
the guard is the literal Python condition
(self.active and self.up is False) or self.firstCheck
(Python operator precedence: and binds tighter than or). -/
def resultUp (st : MonitorState) : MonitorState :=
  let st := { st with upResults := st.upResults + 1 }
  if (st.active && st.up == some false) || st.firstCheck then
    { st with
      up := some true,
      firstCheck := false,
      coordUpNotifications :=
        st.coordUpNotifications + (if st.hasCoordinator then 1 else 0),
      upTransitions := st.upTransitions + 1,
      statusGauge := some 1 }
  else st

/-- MonitoringProtocol._resultDown.  The raw counter is always incremented;
the guard is the literal Python condition
(self.active and self.up is True) or self.firstCheck. -/
def resultDown (st : MonitorState) : MonitorState :=
  let st := { st with downResults := st.downResults + 1 }
  if (st.active && st.up == some true) || st.firstCheck then
    { st with
      up := some false,
      firstCheck := false,
      coordDownNotifications :=
        st.coordDownNotifications + (if st.hasCoordinator then 1 else 0),
      downTransitions := st.downTransitions + 1,
      statusGauge := some 0 }
  else st

/-- n consecutive calls of _resultDown. -/
def iterDown : Nat → MonitorState → MonitorState
  | 0, st => st
  | n + 1, st => iterDown n (resultDown st)

/-! ## pybal/bgp/ip.py : the IPPrefix codec

A packed ip string is a byte string; we model it as a list of byte values.
The field pfx models the attribute self.prefix (the raw, possibly
shorter-than-full-width packed bytes). -/

def AFI_INET : Nat := 1
def AFI_INET6 : Nat := 2

structure IPPrefix where
  pfx : List Nat
  prefixlen : Nat
  addressfamily : Nat
deriving DecidableEq, Repr

/-- Python byte-string comparison: lexicographic on unsigned byte values, a
proper initial segment comparing less than the longer string. -/
def bytesLt : List Nat → List Nat → Bool
  | _, [] => false
  | [], _ :: _ => true
  | a :: as, b :: bs =>
    if a < b then true
    else if b < a then false
    else bytesLt as bs

/-- IPPrefix._packedMaxLen: 16 for the INET6 family, else 4. -/
def packedMaxLen (p : IPPrefix) : Nat :=
  if p.addressfamily = AFI_INET6 then 16 else 4

/-- IPPrefix.packed: the raw bytes, right-padded with zero bytes to the
family's full width when pad is requested (str.ljust never truncates). -/
def packed (p : IPPrefix) (pad : Bool) : List Nat :=
  if pad then p.pfx ++ List.replicate (packedMaxLen p - p.pfx.length) 0
  else p.pfx

/-- IPPrefix.__eq__: same prefix length and identical padded bytes
(the address family is not compared directly, only through padding). -/
def pyEq (a b : IPPrefix) : Bool :=
  a.prefixlen == b.prefixlen && packed a true == packed b true

/-- IPPrefix.__lt__: raw packed strings compared first, prefix length as the
tie breaker.  Note: the raw attribute self.prefix is compared, not the
padded bytes that __eq__ compares. -/
def pyLt (a b : IPPrefix) : Bool :=
  bytesLt a.pfx b.pfx || (a.pfx == b.pfx && decide (a.prefixlen < b.prefixlen))

/-- IPPrefix.__gt__. -/
def pyGt (a b : IPPrefix) : Bool :=
  bytesLt b.pfx a.pfx || (a.pfx == b.pfx && decide (b.prefixlen < a.prefixlen))

/-- IPPrefix.ipToInt: reduce(lambda x, y: x * 256 + y, bytes).  (The Python
reduce has no initializer and so faults on an empty byte string; on the
non-empty strings mask feeds it, it computes this fold from 0.) -/
def ipToInt (p : IPPrefix) : Nat :=
  p.pfx.foldl (fun x y => x * 256 + y) 0

/-- The Python faults IPPrefix.mask can raise: the debug assert on the packed
length, a ValueError from a negative shift count, and a struct.error from
packing a value outside the 4-byte range of the format !I. -/
inductive MaskErr where
  | assertionError
  | valueError
  | structError
deriving DecidableEq, Repr

/-- struct.pack with format !I: exactly four big-endian bytes, faulting on any
value of 2^32 or more. -/
def packBangI (v : Nat) : Except MaskErr (List Nat) :=
  if v < 2 ^ 32 then
    Except.ok [v / 2 ^ 24 % 256, v / 2 ^ 16 % 256, v / 2 ^ 8 % 256, v % 256]
  else Except.error MaskErr.structError

/-- IPPrefix.mask: asserts the packed bytes are full-width, then clears the
low (width - prefixlen) bits of the integer form by a shift down and up, and
re-packs the result with struct format !I (four bytes, whatever the family).
The stored prefix length is replaced only when shorten is set. -/
def mask (p : IPPrefix) (prefixlen : Nat) (shorten : Bool) : Except MaskErr IPPrefix :=
  if p.pfx.length ≠ packedMaxLen p then Except.error MaskErr.assertionError
  else if p.pfx.length * 8 < prefixlen then Except.error MaskErr.valueError
  else
    let masklen := p.pfx.length * 8 - prefixlen
    match packBangI (ipToInt p / 2 ^ masklen * 2 ^ masklen) with
    | Except.error e => Except.error e
    | Except.ok bs =>
      Except.ok { pfx := bs,
                  prefixlen := if shorten then prefixlen else p.prefixlen,
                  addressfamily := p.addressfamily }

/-! ### Textual parsing (IPPrefix.__init__ with a string argument) -/

/-- str.split with a one-character separator: Python semantics, in particular
splitting the empty string yields one empty part. -/
def splitOnChar (sep : Char) : List Char → List (List Char)
  | [] => [[]]
  | c :: rest =>
    if c = sep then [] :: splitOnChar sep rest
    else
      match splitOnChar sep rest with
      | [] => [[c]]
      | g :: gs => (c :: g) :: gs

/-- Value of one hexadecimal digit. -/
def hexDigitVal (c : Char) : Option Nat :=
  if '0' ≤ c ∧ c ≤ '9' then some (c.toNat - '0'.toNat)
  else if 'a' ≤ c ∧ c ≤ 'f' then some (c.toNat - 'a'.toNat + 10)
  else if 'A' ≤ c ∧ c ≤ 'F' then some (c.toNat - 'A'.toNat + 10)
  else none

def hexValCore : List Char → Nat → Option Nat
  | [], acc => some acc
  | c :: cs, acc =>
    match hexDigitVal c with
    | some d => hexValCore cs (acc * 16 + d)
    | none => none

/-- int(x, 16) on the strings this parser feeds it: a non-empty string of hex
digits; anything else raises ValueError (none). -/
def hexVal (l : List Char) : Option Nat :=
  if l = [] then none else hexValCore l 0

/-- Value of one decimal digit. -/
def decDigitVal (c : Char) : Option Nat :=
  if '0' ≤ c ∧ c ≤ '9' then some (c.toNat - '0'.toNat) else none

def decValCore : List Char → Nat → Option Nat
  | [], acc => some acc
  | c :: cs, acc =>
    match decDigitVal c with
    | some d => decValCore cs (acc * 10 + d)
    | none => none

/-- int(x) on the strings this parser feeds it: a non-empty string of decimal
digits; anything else raises ValueError (none). -/
def decVal (l : List Char) : Option Nat :=
  if l = [] then none else decValCore l 0

/-- The :: preprocessing of the INET6 branch of IPPrefix.__init__: a leading
:: has a zero group prepended, otherwise a trailing :: has a zero group
appended (elif, so never both). -/
def expandV6 (s : List Char) : List Char :=
  if s.take 2 = [':', ':'] then '0' :: s
  else if s.reverse.take 2 = [':', ':'] then s ++ ['0']
  else s

/-- The group list the INET6 branch iterates over: split the preprocessed
text on the colon. -/
def v6groups (s : List Char) : List (List Char) :=
  splitOnChar ':' (expandV6 s)

/-- Bytes contributed by one group, where n is the total number of groups: a
non-empty group packs its hex value with struct format !H (two big-endian
bytes, faulting at 65536 or more), an empty group contributes
2 * (8 - n + 1) zero bytes. -/
def groupBytes (n : Nat) (g : List Char) : Except Unit (List Nat) :=
  if g = [] then Except.ok (List.replicate (2 * (8 - n + 1)) 0)
  else
    match hexVal g with
    | some v => if v < 65536 then Except.ok [v / 256, v % 256] else Except.error ()
    | none => Except.error ()

def parseGroups (n : Nat) : List (List Char) → Except Unit (List Nat)
  | [] => Except.ok []
  | g :: gs =>
    match groupBytes n g with
    | Except.error e => Except.error e
    | Except.ok bs =>
      match parseGroups n gs with
      | Except.error e => Except.error e
      | Except.ok rest => Except.ok (bs ++ rest)

/-- The INET6 branch of IPPrefix.__init__ applied to the address part of the
text (before the slash): preprocess ::, split on the colon, raise when more
than 8 groups, else concatenate the bytes of every group. -/
def parseV6addr (s : List Char) : Except Unit (List Nat) :=
  let hexlist := v6groups s
  if 8 < hexlist.length then Except.error ()
  else parseGroups hexlist.length hexlist

/-- The INET branch of IPPrefix.__init__ applied to the address part of the
text: chr(int(o)) for each part of a split on the dot (chr raises beyond
255). -/
def parseV4addr (s : List Char) : Except Unit (List Nat) :=
  (splitOnChar '.' s).foldr
    (fun o acc =>
      match decVal o with
      | some v =>
        if v < 256 then
          match acc with
          | Except.error e => Except.error e
          | Except.ok rest => Except.ok (v :: rest)
        else Except.error ()
      | none => Except.error ())
    (Except.ok [])

/-- IPPrefix.__init__ on a textual CIDR argument with no explicit address
family: split once on the slash (any other shape of split faults), infer
the family from the presence of a colon, parse the address part by family,
and parse the length part with int(). -/
def ipPrefixOfText (s : List Char) : Except Unit IPPrefix :=
  match splitOnChar '/' s with
  | [addr, plen] =>
    let fam := if addr.contains ':' then AFI_INET6 else AFI_INET
    let bytesE := if fam = AFI_INET6 then parseV6addr addr else parseV4addr addr
    match bytesE with
    | Except.error e => Except.error e
    | Except.ok bs =>
      match decVal plen with
      | some n => Except.ok { pfx := bs, prefixlen := n, addressfamily := fam }
      | none => Except.error ()
  | _ => Except.error ()

/-! ## Concrete sample values used by witnesses and counterexamples -/

def svcSample : ServiceTuple := ServiceTuple.mk "tcp" "127.0.0.1" 80 (some "rr") (some false)

def srvSample : Server := Server.mk "h" none none false

def srvPooled : Server := Server.mk "h" none none true

/-- A service with no installed servers. -/
def lvsEmpty : LVSState := LVSState.mk svcSample ∅ (fun _ => srvSample)

/-- A service with servers 0 and 1 installed, both marked pooled. -/
def lvsTwo : LVSState := LVSState.mk svcSample {0, 1} (fun _ => srvPooled)

/-- The state removeServer lvsTwo 0 produces. -/
def lvsTwoErased : LVSState :=
  LVSState.mk svcSample (({0, 1} : Finset Nat).erase 0)
    (fun i => if i = 0 then { srvPooled with pooled := false } else srvPooled)

/-- A monitor that is active, past its first check, and Up: the configuration
of an established Up verdict. -/
def monUp : MonitorState :=
  MonitorState.mk (some true) true false true 1 0 1 0 1 0 (some 1)

/-- A monitor that was stopped after an established Up verdict. -/
def monStopped : MonitorState :=
  MonitorState.mk (some true) false false true 1 0 1 0 1 0 (some 1)

/-- A monitor that is inactive and has never completed a check. -/
def monInactiveFresh : MonitorState :=
  MonitorState.mk none false true true 0 0 0 0 0 0 none

/-- 2001:db8::1 in full-width packed form. -/
def v6Sample : IPPrefix :=
  IPPrefix.mk [32, 1, 13, 184, 0, 0, 0, 0, 0, 0, 0, 0, 0, 0, 0, 1] 128 AFI_INET6

/-- The six distinct server objects of the repository's testAssignServers
unit test: hosts a, b, c installed, and fresh objects c, d, e desired (the
two c objects are distinct Python objects, hence distinct identities). -/
def storeSample : Nat → Server := fun i =>
  if i = 1 then Server.mk "a" none none false
  else if i = 2 then Server.mk "b" none none false
  else if i = 3 then Server.mk "c" none none false
  else if i = 4 then Server.mk "c" none none false
  else if i = 5 then Server.mk "d" none none false
  else Server.mk "e" none none false

end PyBal

/-! # Theorems -/

namespace PyBal

/-- Claim C9: commandAddService on the 5-tuple (tcp, 2620::123, 443, rr,
False) yields the literal string seen in the unit tests, with the IPv6
address bracketed, the scheduler appended and no one-packet flag; and
commandAddServer for a weight-25 server appends the weight suffix to the
weightless command. -/
theorem C9_command_literals :
    commandAddService (ServiceTuple.mk "tcp" "2620::123" 443 (some "rr") (some false)) =
      some "-A -t [2620::123]:443 -s rr" ∧
    commandAddServer (ServiceTuple.mk "tcp" "2620::123" 443 none none)
        (Server.mk "localhost" none (some 25) false) =
      some "-a -t [2620::123]:443 -r localhost -w 25" ∧
    commandAddServer (ServiceTuple.mk "tcp" "2620::123" 443 none none)
        (Server.mk "localhost" none none false) =
      some "-a -t [2620::123]:443 -r localhost" := by
  refine ⟨rfl, rfl, rfl⟩

/-- Claim C4, counterexample: an inactive monitor that has never completed a
check (firstCheck still true).  A resultDown call on it does update the
verdict and does notify the coordinator, because in the Python guard
(self.active and self.up is True) or self.firstCheck
the firstCheck disjunct bypasses the active conjunct. -/
theorem C4_counterexample :
    monInactiveFresh.active = false ∧
    (resultDown monInactiveFresh).up ≠ monInactiveFresh.up ∧
    (resultDown monInactiveFresh).coordDownNotifications =
      monInactiveFresh.coordDownNotifications + 1 := by
  refine ⟨rfl, by decide, rfl⟩

/-- Claim C4 as amended: an inactive monitor whose first check has already
completed only counts the raw result; the verdict, the transition counters,
the gauge and the notifications are unchanged.  (When firstCheck is still
true, an inactive monitor does transition and notify; see the
counterexample.) -/
theorem C4_amended (st : MonitorState)
    (ha : st.active = false) (hf : st.firstCheck = false) :
    resultUp st = { st with upResults := st.upResults + 1 } ∧
    resultDown st = { st with downResults := st.downResults + 1 } := by
  constructor
  · simp [resultUp, ha, hf]
  · simp [resultDown, ha, hf]

/-- Witness for the amended claim C4, at a concrete stopped monitor. -/
theorem C4_amended_w :
    resultUp monStopped = { monStopped with upResults := monStopped.upResults + 1 } ∧
    resultDown monStopped = { monStopped with downResults := monStopped.downResults + 1 } :=
  C4_amended monStopped rfl rfl

/-- A resultDown call on a monitor already Down (and past its first check)
only increments the raw down counter. -/
theorem resultDown_noop (st : MonitorState)
    (hu : st.up = some false) (hf : st.firstCheck = false) :
    resultDown st = { st with downResults := st.downResults + 1 } := by
  simp [resultDown, hu, hf]

/-- A resultDown call on an active monitor that is Up fires the transition:
verdict Down, firstCheck cleared, the transition counter and (when a
coordinator is attached) the notification count incremented. -/
theorem resultDown_fires (st : MonitorState)
    (ha : st.active = true) (hu : st.up = some true) :
    resultDown st =
      { st with
        downResults := st.downResults + 1,
        up := some false,
        firstCheck := false,
        coordDownNotifications :=
          st.coordDownNotifications + (if st.hasCoordinator then 1 else 0),
        downTransitions := st.downTransitions + 1,
        statusGauge := some 0 } := by
  simp [resultDown, ha, hu]

/-- Iterating resultDown over a monitor that is already Down and past its
first check only accumulates raw down results. -/
theorem iterDown_stable (st : MonitorState)
    (hu : st.up = some false) (hf : st.firstCheck = false) :
    ∀ n, iterDown n st = { st with downResults := st.downResults + n } := by
  intro n
  induction n generalizing st with
  | zero => rfl
  | succ n ih =>
    rw [iterDown, resultDown_noop st hu hf,
        ih { st with downResults := st.downResults + 1 } hu hf]
    simp [Nat.add_assoc, Nat.add_comm 1 n]

/-- Claim C3: monitor notification is edge-triggered.  For an active monitor
with an established Up verdict and an attached coordinator, n consecutive
resultDown calls (n at least 2) increment the down transition counter and the
coordinator notification count exactly once, while the raw down result
counter counts all n calls. -/
theorem C3_edge_triggered (st : MonitorState) (n : Nat)
    (ha : st.active = true) (hf : st.firstCheck = false) (hu : st.up = some true)
    (hc : st.hasCoordinator = true) (hn : 2 ≤ n) :
    (iterDown n st).downTransitions = st.downTransitions + 1 ∧
    (iterDown n st).coordDownNotifications = st.coordDownNotifications + 1 ∧
    (iterDown n st).downResults = st.downResults + n := by
  obtain ⟨k, rfl⟩ : ∃ k, n = k + 1 := ⟨n - 1, by omega⟩
  rw [iterDown, resultDown_fires st ha hu, iterDown_stable _ rfl rfl k]
  refine ⟨rfl, by simp [hc], by simp; omega⟩

/-- Witness for claim C3 at a concrete established-Up monitor and n = 2. -/
theorem C3_edge_triggered_w :
    (iterDown 2 monUp).downTransitions = monUp.downTransitions + 1 ∧
    (iterDown 2 monUp).coordDownNotifications = monUp.coordDownNotifications + 1 ∧
    (iterDown 2 monUp).downResults = monUp.downResults + 2 :=
  C3_edge_triggered monUp 2 rfl rfl rfl rfl (by decide)

/-- Claim C10: assignServers never touches the attribute store, so no
server's pooled flag changes across a reconcile; and (second conjunct) the
pooled flag of an installed server can therefore disagree with membership in
installedServers after a reconcile. -/
theorem C10_assignServers_frame :
    (∀ (st : LVSState) (d : Finset Nat) (i : Nat),
      (((assignServers st d).2.store i)).pooled = (st.store i).pooled) ∧
    (∃ (st : LVSState) (d : Finset Nat) (s : Nat),
      s ∈ (assignServers st d).2.servers ∧
      ((assignServers st d).2.store s).pooled = false) := by
  refine ⟨fun st d i => rfl, ⟨lvsEmpty, {0}, 0, ?_, rfl⟩⟩
  decide

/-- Claim C2, counterexample: a second reconcile with the same desired set
does emit commands, namely one edit command per desired server (here the
desired set is the single server 0, starting from an empty service). -/
theorem C2_counterexample :
    (assignServers (assignServers lvsEmpty {0}).2 {0}).1 =
      [Cmd.mk CmdKind.edit 0] ∧
    [Cmd.mk CmdKind.edit 0] ≠ ([] : List Cmd) := by
  refine ⟨by decide, by decide⟩

/-! ### Counting helpers for the reconcile theorems -/

theorem mem_msAsc (m : Multiset Nat) (a : Nat) : a ∈ msAsc m ↔ a ∈ m := by
  induction m using Quotient.inductionOn with
  | h l =>
    show a ∈ List.insertionSort (· ≤ ·) l ↔ a ∈ (l : Multiset Nat)
    rw [List.mem_insertionSort]
    exact Multiset.mem_coe.symm

theorem msAsc_nodup (m : Multiset Nat) (h : m.Nodup) : (msAsc m).Nodup := by
  induction m using Quotient.inductionOn with
  | h l =>
    show (List.insertionSort (· ≤ ·) l).Nodup
    exact (List.perm_insertionSort _ l).nodup_iff.mpr (Multiset.coe_nodup.mp h)

theorem mem_ascList (s : Finset Nat) (a : Nat) : a ∈ ascList s ↔ a ∈ s :=
  mem_msAsc s.val a

theorem ascList_nodup (s : Finset Nat) : (ascList s).Nodup :=
  msAsc_nodup s.val s.nodup

/-- The ascending listing of a finite set holds each member exactly once. -/
theorem count_ascList (s : Finset Nat) (a : Nat) :
    (ascList s).count a = if a ∈ s then 1 else 0 := by
  by_cases h : a ∈ s
  · simp only [h, if_true]
    exact List.count_eq_one_of_mem (ascList_nodup s) ((mem_ascList s a).mpr h)
  · simp only [h, if_false]
    exact List.count_eq_zero.mpr (fun hm => h ((mem_ascList s a).mp hm))

/-- Counting a tagged command in a per-kind block: the count of the server
when the kinds agree, zero otherwise. -/
theorem count_map_mk (k k' : CmdKind) (l : List Nat) (s : Nat) :
    (l.map (fun x => Cmd.mk k x)).count (Cmd.mk k' s) =
      if k' = k then l.count s else 0 := by
  induction l with
  | nil => simp
  | cons a l ih =>
    simp only [List.map_cons, List.count_cons, ih]
    by_cases hk : k' = k
    · subst hk
      by_cases hs : a = s
      · subst hs; simp
      · simp [Cmd.mk.injEq, hs]
    · simp [Cmd.mk.injEq, hk, Ne.symm hk]

/-- Every command of a per-kind block carries that kind. -/
theorem kind_of_mem_map (k : CmdKind) (l : List Nat) (c : Cmd)
    (h : c ∈ l.map (fun x => Cmd.mk k x)) : c.kind = k := by
  obtain ⟨a, _, rfl⟩ := List.mem_map.mp h
  rfl

theorem pairwise_triv {α : Type} {R : α → α → Prop} (h : ∀ a b, R a b) :
    ∀ l : List α, l.Pairwise R
  | [] => List.Pairwise.nil
  | a :: l => List.Pairwise.cons (fun b _ => h a b) (pairwise_triv h l)

/-- A per-kind block is internally rank-monotone (all its kinds agree). -/
theorem pairwise_rank_map (k : CmdKind) (l : List Nat) :
    (l.map (fun x => Cmd.mk k x)).Pairwise
      (fun c₁ c₂ => kindRank c₁.kind ≤ kindRank c₂.kind) := by
  refine List.pairwise_map.mpr (pairwise_triv (fun a b => ?_) l)
  exact Nat.le_refl _

/-- Claim C1: one reconcile emits exactly one add command per server of
desired minus installed, exactly one edit command per server of desired
intersect installed, and exactly one remove command per server of installed
minus desired; every add precedes every edit, which precedes every remove
(kindRank is monotone along the emitted list); and afterwards the installed
set is exactly the desired set. -/
theorem C1_assignServers_reconcile (st : LVSState) (d : Finset Nat) :
    (∀ s, (assignServers st d).1.count (Cmd.mk CmdKind.add s) =
      if s ∈ d \ st.servers then 1 else 0) ∧
    (∀ s, (assignServers st d).1.count (Cmd.mk CmdKind.edit s) =
      if s ∈ d ∩ st.servers then 1 else 0) ∧
    (∀ s, (assignServers st d).1.count (Cmd.mk CmdKind.remove s) =
      if s ∈ st.servers \ d then 1 else 0) ∧
    (assignServers st d).1.Pairwise (fun c₁ c₂ => kindRank c₁.kind ≤ kindRank c₂.kind) ∧
    (assignServers st d).2.servers = d := by
  refine ⟨?_, ?_, ?_, ?_, rfl⟩
  · intro s
    simp only [assignServers, List.count_append, count_map_mk, count_ascList]
    simp
  · intro s
    simp only [assignServers, List.count_append, count_map_mk, count_ascList]
    simp
  · intro s
    simp only [assignServers, List.count_append, count_map_mk, count_ascList]
    simp
  · simp only [assignServers]
    refine List.pairwise_append.mpr
      ⟨List.pairwise_append.mpr ⟨pairwise_rank_map _ _, pairwise_rank_map _ _, ?_⟩,
       pairwise_rank_map _ _,
       ?_⟩
    · intro a ha b hb
      rw [kind_of_mem_map _ _ _ ha, kind_of_mem_map _ _ _ hb]
      decide
    · intro a ha b hb
      rw [kind_of_mem_map _ _ _ hb]
      obtain ⟨ak, av⟩ := a
      cases ak <;> simp [kindRank]

theorem ascList_empty : ascList ∅ = [] := rfl

/-- Claim C2 as amended: reconcile is idempotent on the installed set (it
equals the desired set after either call), and the second call emits no add
and no remove commands; but it does emit commands, namely exactly one edit
command per desired server (the code re-syncs desired-intersect-installed,
which the second time around is the whole desired set). -/
theorem C2_amended (st : LVSState) (d : Finset Nat) :
    ((assignServers st d).2.servers = d) ∧
    ((assignServers (assignServers st d).2 d).2.servers = d) ∧
    (∀ c ∈ (assignServers (assignServers st d).2 d).1, c.kind = CmdKind.edit) ∧
    (∀ s, (assignServers (assignServers st d).2 d).1.count (Cmd.mk CmdKind.add s) = 0) ∧
    (∀ s, (assignServers (assignServers st d).2 d).1.count (Cmd.mk CmdKind.remove s) = 0) ∧
    (∀ s, (assignServers (assignServers st d).2 d).1.count (Cmd.mk CmdKind.edit s) =
      if s ∈ d then 1 else 0) := by
  have h2 : (assignServers (assignServers st d).2 d).1
      = (ascList d).map (fun s => Cmd.mk CmdKind.edit s) := by
    simp only [assignServers, Finset.sdiff_self, Finset.inter_self, ascList_empty,
      List.map_nil, List.nil_append, List.append_nil]
  refine ⟨rfl, rfl, ?_, ?_, ?_, ?_⟩
  · intro c hc
    rw [h2] at hc
    exact kind_of_mem_map _ _ _ hc
  · intro s
    rw [h2, count_map_mk]
    simp
  · intro s
    rw [h2, count_map_mk]
    simp
  · intro s
    rw [h2, count_map_mk, count_ascList]
    simp

/-- Claim C8: removeServer fails exactly when the server is not currently
installed, and on success the server has left the installed set and its
pooled flag is cleared (the emitted command being the single remove). -/
theorem C8_removeServer (st : LVSState) (s : Nat) :
    (removeServer st s = Except.error () ↔ s ∉ st.servers) ∧
    (∀ cs st₂, removeServer st s = Except.ok (cs, st₂) →
      s ∉ st₂.servers ∧ (st₂.store s).pooled = false ∧
      st₂.servers = st.servers.erase s ∧ cs = [Cmd.mk CmdKind.remove s]) := by
  by_cases h : s ∈ st.servers
  · constructor
    · simp [removeServer, h]
    · intro cs st₂ hok
      rw [removeServer, if_pos h] at hok
      simp only [Except.ok.injEq, Prod.mk.injEq] at hok
      obtain ⟨hc, hs2⟩ := hok
      subst hs2
      refine ⟨Finset.not_mem_erase s st.servers, by simp, rfl, hc.symm⟩
  · constructor
    · simp [removeServer, h]
    · intro cs st₂ hok
      rw [removeServer, if_neg h] at hok
      exact absurd hok (by simp)

/-- Witness for claim C8: on a service with servers 0 and 1 installed,
removing the un-installed server 5 faults, and removing server 0 succeeds
with the stated final state. -/
theorem C8_removeServer_w :
    removeServer lvsTwo 5 = Except.error () ∧
    (0 ∉ lvsTwoErased.servers ∧ (lvsTwoErased.store 0).pooled = false ∧
     lvsTwoErased.servers = lvsTwo.servers.erase 0 ∧
     [Cmd.mk CmdKind.remove 0] = [Cmd.mk CmdKind.remove 0]) :=
  ⟨(C8_removeServer lvsTwo 5).1.mpr (by decide),
   (C8_removeServer lvsTwo 0).2 [Cmd.mk CmdKind.remove 0] lvsTwoErased rfl⟩

/-! ### The prefix comparison order -/

theorem bytesLt_irrefl (l : List Nat) : bytesLt l l = false := by
  induction l with
  | nil => rfl
  | cons a as ih => simp [bytesLt, ih]

theorem bytesLt_asymm : ∀ (a b : List Nat), bytesLt a b = true → bytesLt b a = false := by
  intro a
  induction a with
  | nil =>
    intro b h
    cases b with
    | nil => simp [bytesLt] at h
    | cons b bs => simp [bytesLt]
  | cons a as ih =>
    intro b h
    cases b with
    | nil => simp [bytesLt] at h
    | cons b bs =>
      simp only [bytesLt] at h ⊢
      split_ifs at h ⊢ <;> first | rfl | omega | exact ih bs h

theorem bytesLt_connex : ∀ (a b : List Nat),
    bytesLt a b = false → bytesLt b a = false → a = b := by
  intro a
  induction a with
  | nil =>
    intro b h1 h2
    cases b with
    | nil => rfl
    | cons b bs => simp [bytesLt] at h1
  | cons a as ih =>
    intro b h1 h2
    cases b with
    | nil => simp [bytesLt] at h2
    | cons b bs =>
      simp only [bytesLt] at h1 h2
      by_cases hab : a < b
      · simp [hab] at h1
      · by_cases hba : b < a
        · simp [hab, hba] at h2
        · simp [hab, hba] at h1 h2
          have hq : a = b := by omega
          subst hq
          rw [ih bs h1 h2]

theorem bytesLt_trans : ∀ (a b c : List Nat),
    bytesLt a b = true → bytesLt b c = true → bytesLt a c = true := by
  intro a
  induction a with
  | nil =>
    intro b c h1 h2
    cases b with
    | nil => simp [bytesLt] at h1
    | cons b bs =>
      cases c with
      | nil => simp [bytesLt] at h2
      | cons c cs => simp [bytesLt]
  | cons a as ih =>
    intro b c h1 h2
    cases b with
    | nil => simp [bytesLt] at h1
    | cons b bs =>
      cases c with
      | nil => simp [bytesLt] at h2
      | cons c cs =>
        simp only [bytesLt] at h1 h2 ⊢
        split_ifs at h1 h2 ⊢ <;> first | rfl | omega | exact ih bs cs h1 h2

/-- A prefix whose raw bytes are full-width pads to itself. -/
theorem packed_full (a : IPPrefix) (h : a.pfx.length = packedMaxLen a) :
    packed a true = a.pfx := by
  simp [packed, ← h]

/-- Claim C5, counterexample: two same-family prefixes with identical padded
bytes and identical prefix length (so equal under the code's equality) that
are nevertheless related by the less-than operator, because less-than
compares the raw unpadded byte strings. -/
theorem C5_counterexample :
    (IPPrefix.mk [10] 8 AFI_INET).addressfamily =
      (IPPrefix.mk [10, 0] 8 AFI_INET).addressfamily ∧
    pyEq (IPPrefix.mk [10] 8 AFI_INET) (IPPrefix.mk [10, 0] 8 AFI_INET) = true ∧
    pyLt (IPPrefix.mk [10] 8 AFI_INET) (IPPrefix.mk [10, 0] 8 AFI_INET) = true := by
  refine ⟨rfl, by decide, by decide⟩

/-- Claim C5 as amended: the less-than operator is transitive on all
prefixes, and its primary key is the raw (unpadded) byte string with prefix
length as tie breaker.  Restricted to prefixes of one address family whose
raw byte strings are full-width (where raw and padded bytes coincide),
exactly one of less-than, equality, greater-than holds.  Same-family
prefixes with equal padded bytes of different raw widths can satisfy both
equality and less-than (see the counterexample). -/
theorem C5_amended :
    (∀ a b c : IPPrefix, pyLt a b = true → pyLt b c = true → pyLt a c = true) ∧
    (∀ a b : IPPrefix, a.addressfamily = b.addressfamily →
      a.pfx.length = packedMaxLen a → b.pfx.length = packedMaxLen b →
      ((pyLt a b = true ∧ pyEq a b = false ∧ pyGt a b = false) ∨
       (pyLt a b = false ∧ pyEq a b = true ∧ pyGt a b = false) ∨
       (pyLt a b = false ∧ pyEq a b = false ∧ pyGt a b = true))) := by
  constructor
  · intro a b c h1 h2
    simp only [pyLt, Bool.or_eq_true, Bool.and_eq_true, beq_iff_eq,
      decide_eq_true_eq] at h1 h2 ⊢
    rcases h1 with h1 | ⟨h1e, h1l⟩ <;> rcases h2 with h2 | ⟨h2e, h2l⟩
    · exact Or.inl (bytesLt_trans _ _ _ h1 h2)
    · exact Or.inl (by rw [← h2e]; exact h1)
    · exact Or.inl (by rw [h1e]; exact h2)
    · exact Or.inr ⟨h1e.trans h2e, Nat.lt_trans h1l h2l⟩
  · intro a b hfam ha hb
    have hpa := packed_full a ha
    have hpb := packed_full b hb
    by_cases hlt : bytesLt a.pfx b.pfx = true
    · have hne : a.pfx ≠ b.pfx := fun he => by
        rw [he] at hlt
        exact absurd hlt (by simp [bytesLt_irrefl])
      have hba := bytesLt_asymm _ _ hlt
      refine Or.inl ⟨by simp [pyLt, hlt], ?_, ?_⟩
      · simp [pyEq, hpa, hpb, hne]
      · simp [pyGt, hba, hne]
    · by_cases hgt : bytesLt b.pfx a.pfx = true
      · have hne : a.pfx ≠ b.pfx := fun he => by
          rw [he] at hgt
          exact absurd hgt (by simp [bytesLt_irrefl])
        have hab := bytesLt_asymm _ _ hgt
        refine Or.inr (Or.inr ⟨by simp [pyLt, hab, hne], ?_, by simp [pyGt, hgt]⟩)
        · simp [pyEq, hpa, hpb, hne]
      · have heq : a.pfx = b.pfx :=
          bytesLt_connex _ _ (by simpa using hlt) (by simpa using hgt)
        rcases Nat.lt_trichotomy a.prefixlen b.prefixlen with hl | hl | hl
        · refine Or.inl ⟨by simp [pyLt, heq, hl], ?_, ?_⟩
          · simp [pyEq, hpa, hpb, heq, Nat.ne_of_lt hl]
          · simp [pyGt, heq, bytesLt_irrefl, Nat.lt_asymm hl]
        · refine Or.inr (Or.inl ⟨?_, ?_, ?_⟩)
          · simp [pyLt, heq, bytesLt_irrefl, hl]
          · simp [pyEq, hpa, hpb, heq, hl]
          · simp [pyGt, heq, bytesLt_irrefl, hl]
        · refine Or.inr (Or.inr ⟨?_, ?_, ?_⟩)
          · simp [pyLt, heq, bytesLt_irrefl, Nat.lt_asymm hl]
          · simp [pyEq, hpa, hpb, heq, Ne.symm (Nat.ne_of_lt hl)]
          · simp [pyGt, heq, bytesLt_irrefl, hl]

/-! ### The IPv6 text parser and mask -/

/-- Claim C7: evaluation of mask at its failing IPv6 input, next to correct
IPv4 evaluations.  On a full-width IPv6 prefix (2001:db8::1/128) with
address bits above position 32, the re-pack with struct format !I faults
(struct.error) instead of zeroing the bits beyond the new length, because
the format packs exactly four bytes; for IPv4 the same code is correct,
including the boundary lengths 0 and 32, and shortens the stored prefix
length only when asked to. -/
theorem C7_mask_eval :
    mask v6Sample 32 false = Except.error MaskErr.structError ∧
    mask (IPPrefix.mk [10, 20, 30, 40] 32 AFI_INET) 24 false =
      Except.ok (IPPrefix.mk [10, 20, 30, 0] 32 AFI_INET) ∧
    mask (IPPrefix.mk [10, 20, 30, 40] 32 AFI_INET) 0 false =
      Except.ok (IPPrefix.mk [0, 0, 0, 0] 32 AFI_INET) ∧
    mask (IPPrefix.mk [10, 20, 30, 40] 32 AFI_INET) 32 false =
      Except.ok (IPPrefix.mk [10, 20, 30, 40] 32 AFI_INET) ∧
    mask (IPPrefix.mk [10, 20, 30, 40] 32 AFI_INET) 24 true =
      Except.ok (IPPrefix.mk [10, 20, 30, 0] 24 AFI_INET) := by
  refine ⟨rfl, rfl, rfl, rfl, rfl⟩

theorem groupBytes_length (n : Nat) (g : List Char) (bs : List Nat)
    (h : groupBytes n g = Except.ok bs) :
    bs.length = if g.isEmpty then 2 * (8 - n + 1) else 2 := by
  rw [groupBytes] at h
  split_ifs at h with hg
  · simp only [Except.ok.injEq] at h
    rw [← h]
    simp [hg]
  · cases hv : hexVal g with
    | none =>
      simp only [hv] at h
      exact Except.noConfusion h
    | some v =>
      simp only [hv] at h
      split_ifs at h with hb
      · simp only [Except.ok.injEq] at h
        rw [← h]
        cases g with
        | nil => exact absurd rfl hg
        | cons c g' => simp

theorem parseGroups_length : ∀ (gs : List (List Char)) (n : Nat) (bs : List Nat),
    parseGroups n gs = Except.ok bs →
    bs.length = 2 * (gs.length - gs.countP (fun g => g.isEmpty)) +
      gs.countP (fun g => g.isEmpty) * (2 * (8 - n + 1)) := by
  intro gs
  induction gs with
  | nil =>
    intro n bs h
    simp only [parseGroups, Except.ok.injEq] at h
    rw [← h]
    simp
  | cons g gs ih =>
    intro n bs h
    rw [parseGroups] at h
    cases hgb : groupBytes n g with
    | error e => rw [hgb] at h; cases h
    | ok b1 =>
      rw [hgb] at h
      cases hpg : parseGroups n gs with
      | error e => rw [hpg] at h; cases h
      | ok rest =>
        rw [hpg] at h
        simp only [Except.ok.injEq] at h
        rw [← h]
        have h1 := groupBytes_length n g b1 hgb
        have h2 := ih n rest hpg
        have hce : gs.countP (fun g => g.isEmpty) ≤ gs.length := List.countP_le_length _
        rw [List.length_append, h1, h2, List.countP_cons, List.length_cons]
        have hmul : (List.countP (fun g => g.isEmpty) gs + 1) * (2 * (8 - n + 1))
            = List.countP (fun g => g.isEmpty) gs * (2 * (8 - n + 1)) + 2 * (8 - n + 1) := by
          ring
        cases hg : g.isEmpty <;> simp [hg] <;> omega

/-- Claim C6 as amended: a split producing more than 8 groups is rejected;
every accepted text yields 2 bytes per non-empty group of the preprocessed
split and 2 * (8 - groupCount + 1) bytes per empty group, which comes to
exactly 16 bytes whenever the preprocessed split holds exactly one empty
group (the well-formed single-:: case); but accepted texts with no empty
group and fewer than 8 groups, or with several empty groups (such as the
valid address ::), yield fewer or more than 16 bytes. -/
theorem C6_amended (s : List Char) (bytes : List Nat) :
    (8 < (v6groups s).length → parseV6addr s = Except.error ()) ∧
    (parseV6addr s = Except.ok bytes →
      bytes.length =
        2 * ((v6groups s).length +
          (v6groups s).countP (fun g => g.isEmpty) * (8 - (v6groups s).length)) ∧
      ((v6groups s).countP (fun g => g.isEmpty) = 1 → bytes.length = 16)) := by
  constructor
  · intro h
    simp only [parseV6addr]
    simp [h]
  · intro h
    simp only [parseV6addr] at h
    by_cases hn : 8 < (v6groups s).length
    · simp [hn] at h
    · simp only [if_neg hn] at h
      have hlen := parseGroups_length _ _ _ h
      have hce : (v6groups s).countP (fun g => g.isEmpty) ≤ (v6groups s).length :=
        List.countP_le_length _
      constructor
      · obtain ⟨d, hd⟩ := Nat.le.dest hce
        rw [hlen, ← hd, Nat.add_sub_cancel_left]
        ring
      · intro he
        rw [he] at hce
        rw [hlen, he]
        omega

/-- Claim C6, counterexample: the valid IPv6 text ::/0 is accepted, and its
packed address is 26 bytes, not 16: the leading-:: preprocessing yields the
three groups 0, empty, empty, and each of the two empty groups expands to
2 * (8 - 3 + 1) = 12 zero bytes. -/
theorem C6_counterexample :
    ipPrefixOfText (String.toList "::/0") =
      Except.ok (IPPrefix.mk (List.replicate 26 0) 0 AFI_INET6) ∧
    (List.replicate 26 (0 : Nat)).length ≠ 16 := by
  refine ⟨rfl, by decide⟩

/-- Rendering the tagged commands of assignServers through the command
string constructors reproduces the repository's testAssignServers
expectation: adds for the new objects c, d, e and removes for the old
objects a, b, c (the two hosts named c are distinct objects, so c appears
in both the adds and the removes, and no edit is emitted). -/
theorem assignServers_render_eval :
    ((assignServers (LVSState.mk svcSample {1, 2, 3} storeSample) {4, 5, 6}).1.map
      (renderCmd svcSample storeSample)) =
    [some "-a -t 127.0.0.1:80 -r c",
     some "-a -t 127.0.0.1:80 -r d",
     some "-a -t 127.0.0.1:80 -r e",
     some "-d -t 127.0.0.1:80 -r a",
     some "-d -t 127.0.0.1:80 -r b",
     some "-d -t 127.0.0.1:80 -r c"] := rfl

end PyBal
